import Mathlib

set_option maxRecDepth 16384

/-!
# Verification of the shiroha scaffolding CLI

Shallow embedding of the core logic of the `shiroha` project generator
(`cmd/new.go`, `cmd/build.go`): the Go-version resolver, the scaffold
engine (directory manifest + template file writes over an explicit
file-system state), the platform catalog / build pipeline, and the
post-scaffold orchestrator.  Strings are modelled with Lean `String`;
all machine-level string helpers (split, trim, lower, integer scan)
are re-implemented here on `List Char`, mirroring the exact Go calls
made by the source.
-/

namespace Shiroha

/-- Splits a character list on a separator character; models
`strings.Split` for a one-character separator (the Go `Split` on a
single-byte separator returns the parts between occurrences, and
returns `[""]` on the empty string). -/
def splitOnChar (sep : Char) : List Char → List (List Char)
  | [] => [[]]
  | c :: cs =>
    let r := splitOnChar sep cs
    if c = sep then [] :: r
    else
      match r with
      | [] => [[c]]
      | g :: gs => (c :: g) :: gs

/-- The dot-separated fields of a string, as strings
(`strings.Split(v, ".")`). -/
def splitDots (v : String) : List String :=
  (splitOnChar '.' v.data).map String.mk

/-- Numeric value of a digit list (most significant first). -/
def natOfDigits (ds : List Char) : Nat :=
  ds.foldl (fun a c => a * 10 + (c.toNat - 48)) 0

/-- Models `fmt.Sscanf(s, "%d", &x)` where `x` was initialised to `0`
and the error is ignored: skip leading blanks, read an optionally
signed run of digits; when no digit can be read the variable keeps its
zero value.  Trailing non-digit characters are simply not consumed. -/
def scanInt (s : String) : Int :=
  let cs := s.data.dropWhile (fun c => c = ' ' || c = '\t' || c = '\n')
  match cs with
  | '-' :: rest =>
    let ds := rest.takeWhile Char.isDigit
    if ds = [] then 0 else - Int.ofNat (natOfDigits ds)
  | '+' :: rest =>
    let ds := rest.takeWhile Char.isDigit
    if ds = [] then 0 else Int.ofNat (natOfDigits ds)
  | _ =>
    let ds := cs.takeWhile Char.isDigit
    if ds = [] then 0 else Int.ofNat (natOfDigits ds)

/-- The `parse` closure inside `compareGoVersion` (new.go:318-329):
split on `.`, `Sscanf` the first two fields into `major`/`minor`
(both initialised to `0`). -/
def parseVersionPair (v : String) : Int × Int :=
  let parts := splitDots v
  let major := match parts with
    | p0 :: _ => scanInt p0
    | [] => 0
  let minor := match parts with
    | _ :: p1 :: _ => scanInt p1
    | _ => 0
  (major, minor)

/-- Function `compareGoVersion` (new.go:317-346): numeric comparison of two
version strings, major first, minor only on equal majors. -/
def compareGoVersion (v1 v2 : String) : Int :=
  let p1 := parseVersionPair v1
  let p2 := parseVersionPair v2
  if p1.1 ≠ p2.1 then
    (if p1.1 < p2.1 then -1 else 1)
  else if p1.2 < p2.2 then -1
  else if p1.2 > p2.2 then 1
  else 0

/-- Models `strings.TrimPrefix(v, "go")`: drop a leading `go` when present. -/
def stripGo (s : String) : String :=
  match s.data with
  | 'g' :: 'o' :: rest => String.mk rest
  | _ => s

/-- The truncation step of the version-resolution block
(new.go:120-127): strip the `go` marker from the detected runtime
version and keep the first two dot-fields verbatim, defaulting to
`"1.18"` when fewer than two fields are present. -/
def resolveFirstTwo (detected : String) : String :=
  match splitDots (stripGo detected) with
  | p0 :: p1 :: _ => p0 ++ "." ++ p1
  | _ => "1.18"

/-- The version-resolution block of `createProjectStructure`
(new.go:119-131): truncate to the first two dot-fields, then clamp to
`"1.18"` when the result compares numerically below it. -/
def resolveGoVersion (detected : String) : String :=
  if compareGoVersion (resolveFirstTwo detected) "1.18" < 0 then "1.18"
  else resolveFirstTwo detected

/-! ## File-system model

The scaffold engine mutates the real file system through
`os.MkdirAll` and `os.WriteFile`.  We model the file system as an
explicit state: the set of directories known to exist plus a map from
path to file content.  `os.MkdirAll` never fails on an existing
directory; `os.WriteFile` creates or truncates, silently overwriting.
External failures (permissions, disk) are injected through boolean
oracles, mirroring the `if err != nil` early returns of the source. -/

structure FS where
  dirs : List String
  files : String → Option String

/-- The empty target root. -/
def FS.empty : FS := ⟨[], fun _ => none⟩

/-- Models `os.MkdirAll`: ensure a directory exists (parents elided — the
claims only ever query the full manifest paths). -/
def FS.mkdirAll (fs : FS) (path : String) : FS :=
  { fs with dirs := if path ∈ fs.dirs then fs.dirs else path :: fs.dirs }

/-- Models `os.WriteFile`: create or truncate, overwriting any prior content. -/
def FS.writeFile (fs : FS) (path content : String) : FS :=
  { fs with files := fun q => if q = path then some content else fs.files q }

/-- Read back the content of a file (observer used by the theorems). -/
def FS.read (fs : FS) (path : String) : Option String :=
  fs.files path

/-- Models `filepath.Join(name, rel)` for the path components of the
scaffold: the non-empty components joined with `/` (the Go `Clean` is
the identity on these separator-free relative entries; the multi-arg
calls `filepath.Join(name, "cmd", "server.go")` coincide with joining
`name` to `"cmd/server.go"`). -/
def joinRel (name rel : String) : String :=
  if name = "" then rel else name ++ "/" ++ rel

/-- The directory manifest `dirs` of `createProjectStructure`
(new.go:93-109). -/
def dirManifest : List String :=
  ["cmd", "internal/database", "internal/handler", "internal/model",
   "internal/repository", "internal/request", "internal/response",
   "internal/router", "internal/service", "pkg/common", "pkg/jwt",
   "pkg/utils", "config", "sql", "docs"]

/-! ### Template contents (new.go:134-311), rendered by `fmt.Sprintf`
with the project name (and resolved version) spliced in.  `%%` in the
Go format strings denotes a literal `%` in the generated text. -/

/-- Template `goModContent` (new.go:134-145). -/
def goModContent (name goVersion : String) : String :=
  "module " ++ name ++ "\n\ngo " ++ goVersion ++
  "\n\nrequire (\n    github.com/gin-gonic/gin latest\n    github.com/spf13/viper latest\n    github.com/swaggo/files latest\n    github.com/swaggo/gin-swagger latest\n    github.com/swaggo/swag latest\n)\n"

/-- Template `serverContent` (new.go:151-187). -/
def serverContent (name : String) : String :=
  "package main\n\nimport (\n    _ \"" ++ name ++
  "/docs\" // swagger docs\n\n    \"fmt\"\n    \"log\"\n\n    \"" ++ name ++
  "/config\"\n    \"" ++ name ++
  "/internal/handler\" // 导入新的 handler 包\n    \"" ++ name ++
  "/internal/router\"\n\n)\n\n// @title Shiroha API\n// @version 1.0\n// @description Auto-generated API documentation by Shiroha CLI.\n// @host localhost:8080\n// @BasePath /\n\nfunc init() \x7b\n    config.LoadConfig()\n\x7d\n\nfunc main() \x7b\n    r := router.InitRouter()\n\n    // 路由调用 internal/handler/test_handler.go 中的函数\n    r.GET(\"/test\", handler.TestEndpoint)\n\n    port := config.Cfg.Server.Port\n    fmt.Printf(\"Server running at http://localhost:%d\\n\", port)\n    if err := r.Run(fmt.Sprintf(\":%d\", port)); err != nil \x7b\n       log.Printf(\"server start error: %v\", err)\n    \x7d\n\x7d\n"

/-- Template `testHandlerContent` (new.go:194-213). -/
def testHandlerContent : String :=
  "package handler\n\nimport (\n    \"github.com/gin-gonic/gin\"\n)\n\n// TestEndpoint\n// @Summary Test endpoint\n// @Description Returns a simple greeting message to verify server status.\n// @Tags Health\n// @Accept  json\n// @Produce json\n// @Success 200 \x7bobject\x7d map[string]interface\x7b\x7d \"Returns \x7bmessage: \x27Hello Shiroha\x27\x7d\"\n// @Router /test [get]\nfunc TestEndpoint(c *gin.Context) \x7b\n    c.JSON(200, gin.H\x7b\n       \"message\": \"Hello Shiroha\",\n    \x7d)\n\x7d\n"

/-- Template `routerContent` (new.go:219-236). -/
def routerContent : String :=
  "package router\n\nimport (\n    swaggerFiles \"github.com/swaggo/files\"\n    ginSwagger \"github.com/swaggo/gin-swagger\"\n\n    \"github.com/gin-gonic/gin\"\n)\n\nfunc InitRouter() *gin.Engine \x7b\n    r := gin.Default()\n\n    // swagger UI\n    r.GET(\"/swagger/*any\", ginSwagger.WrapHandler(swaggerFiles.Handler))\n\n    return r\n\x7d\n"

/-- Template `readmeContent` (new.go:243-255). -/
def readmeContent (name : String) : String :=
  "# " ++ name ++
  "\n\nThis project uses Go with a clean layered architecture.\n\n## Swagger Docs\n\nGenerate:\n    swag init -g cmd/server.go -o docs\n\nVisit:\n    http://localhost:8080/swagger/index.html\n\n"

/-- Template `configYamlContent` (new.go:262-263): exactly the two lines
`server:` and `  port: 8080`, with no trailing newline. -/
def configYamlContent : String :=
  "server:\n  port: 8080"

/-- Template `configGoContent` (new.go:270-307). -/
def configGoContent : String :=
  "package config\n\nimport (\n    \"log\"\n\n    \"github.com/spf13/viper\"\n)\n\ntype Config struct \x7b\n    Server *ServerConfig `mapstructure:\"server\"`\n\x7d\n\ntype ServerConfig struct \x7b\n    Port int `mapstructure:\"port\"`\n\x7d\n\nvar Cfg *Config\n\nfunc LoadConfig() \x7b\n    v := viper.New()\n    v.SetConfigName(\"config\")\n    v.SetConfigType(\"yaml\")\n\n    v.AddConfigPath(\".\")\n    v.AddConfigPath(\"./config\")\n    v.AddConfigPath(\"../config\")\n    v.AddConfigPath(\"..\")\n\n    if err := v.ReadInConfig(); err != nil \x7b\n       log.Fatalf(\"Failed to read config file: %v\", err)\n    \x7d\n\n    Cfg = &Config\x7b\x7d\n    if err := v.Unmarshal(Cfg); err != nil \x7b\n       log.Fatalf(\"Failed to unmarshal config: %v\", err)\n    \x7d\n\x7d\n"

/-- The ordered template set: relative path and rendered content, in
the exact write order of `createProjectStructure` (new.go:147-311). -/
def templateWrites (name goVersion : String) : List (String × String) :=
  [("go.mod", goModContent name goVersion),
   ("cmd/server.go", serverContent name),
   ("internal/handler/test_handler.go", testHandlerContent),
   ("internal/router/main_router.go", routerContent),
   ("README.md", readmeContent name),
   ("config.yaml", configYamlContent),
   ("config/config.go", configGoContent)]

/-- The relative paths of the template set, in write order. -/
def templateRels : List String :=
  ["go.mod", "cmd/server.go", "internal/handler/test_handler.go",
   "internal/router/main_router.go", "README.md", "config.yaml",
   "config/config.go"]

/-- The directory-creation loop (new.go:111-116): sequential
`os.MkdirAll`, aborting with `failed to create directory <path>` on
the first injected failure. -/
def runMkdirs (mkdirOk : String → Bool) (name : String) :
    List String → FS → FS × Option String
  | [], fs => (fs, none)
  | d :: ds, fs =>
    let full := joinRel name d
    if mkdirOk full then runMkdirs mkdirOk name ds (fs.mkdirAll full)
    else (fs, some ("failed to create directory " ++ full))

/-- The sequential template writes (new.go:147-311): each
`os.WriteFile`, aborting with `failed to write <relative path>` on the
first injected failure; earlier writes are not rolled back. -/
def runWrites (writeOk : String → Bool) (name : String) :
    List (String × String) → FS → FS × Option String
  | [], fs => (fs, none)
  | (rel, content) :: rest, fs =>
    let full := joinRel name rel
    if writeOk full then runWrites writeOk name rest (fs.writeFile full content)
    else (fs, some ("failed to write " ++ rel))

/-- Function `createProjectStructure` (new.go:92-314): create the directory
manifest, resolve the toolchain version, then write every template
file; the first failing step aborts the rest and surfaces its path. -/
def createProjectStructure (mkdirOk writeOk : String → Bool)
    (name detected : String) (fs : FS) : FS × Option String :=
  match runMkdirs mkdirOk name dirManifest fs with
  | (fs1, some e) => (fs1, some e)
  | (fs1, none) =>
    let goVersion := resolveGoVersion detected
    runWrites writeOk name (templateWrites name goVersion) fs1

/-- The all-successful external world: every `os` call succeeds. -/
def allOk : String → Bool := fun _ => true

/-- Pure effect of a fully successful directory-creation loop. -/
def applyMkdirs (name : String) (ds : List String) (fs : FS) : FS :=
  ds.foldl (fun a d => a.mkdirAll (joinRel name d)) fs

/-- Pure effect of a fully successful template-write loop. -/
def applyWrites (name : String) (ws : List (String × String)) (fs : FS) : FS :=
  ws.foldl (fun a rc => a.writeFile (joinRel name rc.1) rc.2) fs

/-- The first line of a generated file (characters before the first
newline). -/
def firstLine (s : String) : String :=
  String.mk (s.data.takeWhile (fun c => c != '\n'))

/-- A dot-separated field counts as numeric when it is a non-empty run
of decimal digits (the notion of a numeric field used by the
specification). -/
def isNumericField (s : String) : Bool :=
  !s.data.isEmpty && s.data.all Char.isDigit

/-- Models `strings.ToLower`, restricted to the ASCII range actually
exercised by the prompts. -/
def goToLower (s : String) : String :=
  String.mk (s.data.map Char.toLower)

/-- The white-space class of `strings.TrimSpace` (ASCII subset). -/
def isSpaceChar (c : Char) : Bool :=
  c = ' ' || c = '\t' || c = '\n' || c = '\r' || c = '\x0b' || c = '\x0c'

/-- Models `strings.TrimSpace`: drop leading and trailing white
space. -/
def goTrimSpace (s : String) : String :=
  String.mk (((s.data.dropWhile isSpaceChar).reverse.dropWhile isSpaceChar).reverse)

/-- One row of the platform catalog (build.go:15-21). -/
structure PlatformTarget where
  os : String
  arch : String
  desc : String
deriving DecidableEq, Repr

/-- The fixed selector → target mapping `platforms` (build.go:15-21). -/
def platforms (key : String) : Option PlatformTarget :=
  if key = "1" then some ⟨"linux", "amd64", "Linux (amd64)"⟩
  else if key = "2" then some ⟨"linux", "arm64", "Linux (arm64)"⟩
  else if key = "3" then some ⟨"darwin", "amd64", "macOS Intel (amd64)"⟩
  else if key = "4" then some ⟨"darwin", "arm64", "macOS Apple Silicon (arm64)"⟩
  else if key = "5" then some ⟨"windows", "amd64", "Windows (amd64)"⟩
  else none

/-- The size of the catalog, `len(platforms)`, used in the
invalid-choice message (build.go:47). -/
def platformCount : Nat := 5

/-- The externally visible effects of the build pipeline: creating the
`bin` directory and invoking the compiler subprocess with the
cross-compilation environment. -/
inductive BuildEffect where
  | mkdirBin (path : String)
  | compile (goos goarch output : String)
deriving DecidableEq, Repr

/-- Models `filepath.Base` for the already-clean paths handled here:
the last non-empty `/`-separated component (`"."` for the empty path,
`"/"` for a path of slashes). -/
def pathBase (p : String) : String :=
  if p = "" then "."
  else
    match (((splitOnChar '/' p.data).map String.mk).filter (fun c => c ≠ "")).reverse with
    | [] => "/"
    | last :: _ => last

/-- Models `filepath.Dir` for the already-clean paths handled here:
everything before the final component. -/
def pathDir (p : String) : String :=
  if p.data.contains '/' = false then "."
  else
    let r := ((p.data.reverse.dropWhile (fun c => c ≠ '/')).drop 1).reverse
    if r = [] then "/" else String.mk r

/-- Does `s` end with the given suffix? -/
def strEndsWith (s sfx : String) : Bool :=
  s.data.reverse.take sfx.data.length == sfx.data.reverse

/-- The decision core of `buildCmd` (build.go:28-99): trim the typed
selector, look it up in the catalog (unknown keys abort with the
`invalid choice` error before any effect), normalize the project root
(ascend when invoked from inside `cmd`), derive the output name with
`.exe` exactly for the Windows target, then create `bin` and invoke
the compiler.  Returned are the effect trace and the error, if any. -/
def buildCmdRun (input cwd : String) : List BuildEffect × Option String :=
  let choice := goTrimSpace input
  match platforms choice with
  | none => ([], some ("invalid choice: " ++ choice ++ ", please enter 1-"
      ++ toString platformCount))
  | some platform =>
    let projectRoot := if pathBase cwd = "cmd" then pathDir cwd else cwd
    let projectName := pathBase projectRoot
    let outputName := if platform.os = "windows" then projectName ++ ".exe" else projectName
    let binDir := joinRel projectRoot "bin"
    let outputPath := joinRel binDir outputName
    ([BuildEffect.mkdirBin binDir,
      BuildEffect.compile platform.os platform.arch outputPath], none)

/-- The three post-scaffold stages of `newCmd`: dependency sync
(`go mod tidy`), documentation generation (`swag init`), and running
the generated server (`go run cmd/server.go`). -/
inductive Stage where
  | tidy
  | swag
  | run
deriving DecidableEq, Repr

/-- The warning printed when `swag init` fails (new.go:71), which is
deliberately non-fatal. -/
def swagWarning : String :=
  "⚠️ Warning: Failed to run \x27swag init\x27. Please ensure the \x27swag\x27 tool is installed (go install github.com/swaggo/swag/cmd/swag@latest)"

/-- The confirmation-and-pipeline tail of `newCmd` (new.go:38-88):
lowercase then trim the reply; `y`, `yes` and the empty reply proceed,
anything else skips all three stages and returns success.  A `go mod
tidy` failure is fatal (the later stages never run); a `swag init`
failure only records a warning and the run stage still executes; a run
failure is fatal.  Returned are the stages launched, the warnings
printed, and the error, if any. -/
def newCmdAfterScaffold (reply : String) (tidyOk swagOk runOk : Bool) :
    List Stage × List String × Option String :=
  let input := goTrimSpace (goToLower reply)
  if input = "y" ∨ input = "yes" ∨ input = "" then
    if tidyOk then
      let warns := if swagOk then [] else [swagWarning]
      if runOk then ([Stage.tidy, Stage.swag, Stage.run], warns, none)
      else ([Stage.tidy, Stage.swag, Stage.run], warns, some "failed to start project")
    else ([Stage.tidy], [], some "failed to run \x27go mod tidy\x27")
  else ([], [], none)

/-! ## Smoke tests (concrete evaluations of the embedded code) -/

example : resolveGoVersion "go1.21.3" = "1.21" := by decide
example : resolveGoVersion "go1.9.0" = "1.18" := by decide
example : resolveGoVersion "not-a-version" = "1.18" := by decide
example : resolveGoVersion "x.1.20" = "1.18" := by decide
example : compareGoVersion "1.9" "1.18" = -1 := by decide
example :
    ((createProjectStructure allOk allOk "demo" "go1.21.3" FS.empty).1.read
      "demo/config.yaml") = some "server:\n  port: 8080" := by decide
example :
    ((createProjectStructure allOk allOk "demo" "go1.21.3" FS.empty).1.read
      "demo/config/config.go").isSome = true := by decide
example :
    "demo/cmd" ∈ (createProjectStructure allOk allOk "demo" "go1.21.3" FS.empty).1.dirs := by decide
example :
    (createProjectStructure allOk allOk "demo" "go1.21.3" FS.empty).2 = none := by decide

/-! ## Helper lemmas about the file-system steps -/

theorem string_data_append (a b : String) : (a ++ b).data = a.data ++ b.data := rfl

theorem string_mk_data (s : String) : String.mk s.data = s := rfl

theorem string_eq_of_data {s t : String} (h : s.data = t.data) : s = t := by
  cases s; cases t; exact congrArg String.mk (by simpa using h)

/-- Function `joinRel name` is injective in the relative component. -/
theorem joinRel_eq_iff (n r1 r2 : String) : joinRel n r1 = joinRel n r2 ↔ r1 = r2 := by
  unfold joinRel
  split_ifs with h
  · exact Iff.rfl
  · constructor
    · intro he
      have hd := congrArg String.data he
      simp only [string_data_append] at hd
      exact string_eq_of_data (List.append_cancel_left hd)
    · intro he; rw [he]

theorem runMkdirs_allOk (name : String) (ds : List String) (fs : FS) :
    runMkdirs allOk name ds fs = (applyMkdirs name ds fs, none) := by
  induction ds generalizing fs with
  | nil => rfl
  | cons d ds ih => simp [runMkdirs, allOk, applyMkdirs, List.foldl_cons] at ih ⊢; exact ih _

theorem runWrites_allOk (name : String) (ws : List (String × String)) (fs : FS) :
    runWrites allOk name ws fs = (applyWrites name ws fs, none) := by
  induction ws generalizing fs with
  | nil => rfl
  | cons rc ws ih =>
    obtain ⟨rel, c⟩ := rc
    simp [runWrites, allOk, applyWrites, List.foldl_cons] at ih ⊢; exact ih _

/-- A run of the mkdir loop that reports no error performed exactly the
pure mkdir sequence. -/
theorem runMkdirs_success_eq (mkdirOk : String → Bool) (name : String)
    (ds : List String) (fs : FS)
    (h : (runMkdirs mkdirOk name ds fs).2 = none) :
    (runMkdirs mkdirOk name ds fs).1 = applyMkdirs name ds fs := by
  induction ds generalizing fs with
  | nil => rfl
  | cons d ds ih =>
    by_cases hd : mkdirOk (joinRel name d) = true
    · simp [runMkdirs, hd, applyMkdirs, List.foldl_cons] at h ⊢
      exact ih _ (by simpa [runMkdirs, hd] using h)
    · rw [Bool.not_eq_true] at hd
      simp [runMkdirs, hd] at h

/-- A run of the write loop that reports no error performed exactly the
pure write sequence. -/
theorem runWrites_success_eq (writeOk : String → Bool) (name : String)
    (ws : List (String × String)) (fs : FS)
    (h : (runWrites writeOk name ws fs).2 = none) :
    (runWrites writeOk name ws fs).1 = applyWrites name ws fs := by
  induction ws generalizing fs with
  | nil => rfl
  | cons rc ws ih =>
    obtain ⟨rel, c⟩ := rc
    by_cases hd : writeOk (joinRel name rel) = true
    · simp [runWrites, hd, applyWrites, List.foldl_cons] at h ⊢
      exact ih _ (by simpa [runWrites, hd] using h)
    · simp [runWrites, hd] at h

theorem applyMkdirs_files (name : String) (ds : List String) (fs : FS) :
    (applyMkdirs name ds fs).files = fs.files := by
  induction ds generalizing fs with
  | nil => rfl
  | cons d ds ih => simpa [applyMkdirs, List.foldl_cons, FS.mkdirAll] using ih _

theorem applyWrites_dirs (name : String) (ws : List (String × String)) (fs : FS) :
    (applyWrites name ws fs).dirs = fs.dirs := by
  induction ws generalizing fs with
  | nil => rfl
  | cons rc ws ih => simpa [applyWrites, List.foldl_cons, FS.writeFile] using ih _

theorem mem_dirs_mkdirAll_self (fs : FS) (p : String) : p ∈ (fs.mkdirAll p).dirs := by
  simp only [FS.mkdirAll]
  split_ifs with h
  · exact h
  · exact List.mem_cons_self _ _

theorem mem_dirs_mkdirAll_of_mem {fs : FS} {q : String} (p : String)
    (h : q ∈ fs.dirs) : q ∈ (fs.mkdirAll p).dirs := by
  simp only [FS.mkdirAll]
  split_ifs with hp
  · exact h
  · exact List.mem_cons_of_mem _ h

theorem mem_dirs_applyMkdirs_of_mem (name : String) (ds : List String) {fs : FS}
    {q : String} (h : q ∈ fs.dirs) : q ∈ (applyMkdirs name ds fs).dirs := by
  induction ds generalizing fs with
  | nil => exact h
  | cons d ds ih =>
    simp only [applyMkdirs, List.foldl_cons] at ih ⊢
    exact ih (mem_dirs_mkdirAll_of_mem _ h)

theorem mem_dirs_applyMkdirs (name : String) {ds : List String} {d : String}
    (fs : FS) (h : d ∈ ds) : joinRel name d ∈ (applyMkdirs name ds fs).dirs := by
  induction ds generalizing fs with
  | nil => cases h
  | cons e ds ih =>
    simp only [applyMkdirs, List.foldl_cons] at ih ⊢
    rcases List.mem_cons.mp h with he | hm
    · subst he
      exact mem_dirs_applyMkdirs_of_mem name ds (mem_dirs_mkdirAll_self _ _)
    · exact ih _ hm

theorem mkdirAll_of_mem {fs : FS} {p : String} (h : p ∈ fs.dirs) :
    fs.mkdirAll p = fs := by
  simp [FS.mkdirAll, if_pos h]

theorem applyMkdirs_of_all_mem (name : String) {ds : List String} {fs : FS}
    (h : ∀ d ∈ ds, joinRel name d ∈ fs.dirs) : applyMkdirs name ds fs = fs := by
  induction ds with
  | nil => rfl
  | cons d ds ih =>
    simp only [applyMkdirs, List.foldl_cons]
    rw [mkdirAll_of_mem (h d (List.mem_cons_self _ _))]
    exact ih (fun e he => h e (List.mem_cons_of_mem _ he))

theorem read_writeFile (fs : FS) (p c q : String) :
    (fs.writeFile p c).read q = if q = p then some c else fs.read q := rfl

/-- Reading a path that none of the writes target is unchanged. -/
theorem read_applyWrites_notmem (name : String) {ws : List (String × String)}
    {p : String} (fs : FS) (h : ∀ rc ∈ ws, joinRel name rc.1 ≠ p) :
    (applyWrites name ws fs).read p = fs.read p := by
  induction ws generalizing fs with
  | nil => rfl
  | cons rc ws ih =>
    simp only [applyWrites, List.foldl_cons] at ih ⊢
    rw [ih _ (fun rc' h' => h rc' (List.mem_cons_of_mem _ h'))]
    rw [read_writeFile, if_neg]
    intro he
    exact h rc (List.mem_cons_self _ _) he.symm

/-- Reading the target of a write whose path is not rewritten later
yields the content of that write. -/
theorem read_applyWrites_last (name : String) (pre : List (String × String))
    (rel c : String) (post : List (String × String)) (fs : FS)
    (h : ∀ rc ∈ post, joinRel name rc.1 ≠ joinRel name rel) :
    (applyWrites name (pre ++ (rel, c) :: post) fs).read (joinRel name rel) = some c := by
  unfold applyWrites
  rw [List.foldl_append, List.foldl_cons]
  rw [show ∀ fs', List.foldl (fun a rc => FS.writeFile a (joinRel name rc.1) rc.2) fs' post
        = applyWrites name post fs' from fun _ => rfl]
  rw [read_applyWrites_notmem name _ h, read_writeFile, if_pos rfl]

/-- With duplicate-free relative paths, every written template can be
read back. -/
theorem read_applyWrites_mem (name : String) {ws : List (String × String)}
    {rel c : String} (fs : FS) (hnd : (ws.map Prod.fst).Nodup)
    (hm : (rel, c) ∈ ws) :
    (applyWrites name ws fs).read (joinRel name rel) = some c := by
  obtain ⟨pre, post, rfl⟩ := List.append_of_mem hm
  apply read_applyWrites_last
  intro rc hrc
  rw [Ne, joinRel_eq_iff]
  intro he
  rw [List.map_append, List.map_cons] at hnd
  have := (List.Nodup.of_append_right hnd)
  rw [List.nodup_cons] at this
  exact this.1 (by simpa [he] using List.mem_map_of_mem Prod.fst hrc)

/-- Characterization: a read after the write loop returns the last
matching write, else the prior content. -/
theorem read_applyWrites_char (name : String) (ws : List (String × String))
    (fs : FS) (p : String) :
    (applyWrites name ws fs).read p =
      match ws.reverse.find? (fun rc => joinRel name rc.1 == p) with
      | some rc => some rc.2
      | none => fs.read p := by
  induction ws generalizing fs with
  | nil => rfl
  | cons rc ws ih =>
    obtain ⟨rel, c⟩ := rc
    rw [show applyWrites name ((rel, c) :: ws) fs
        = applyWrites name ws (fs.writeFile (joinRel name rel) c) from rfl]
    rw [ih]
    rw [List.reverse_cons, List.find?_append]
    cases hf : ws.reverse.find? (fun rc => joinRel name rc.1 == p) with
    | some rc => simp [hf]
    | none =>
      simp only [hf, List.find?_cons, List.find?_nil]
      by_cases hp : (joinRel name rel == p) = true
      · have hpe : joinRel name rel = p := by simpa using hp
        simp [hp, read_writeFile, hpe.symm, Option.or]
      · have hpe : ¬ p = joinRel name rel := by
          simp only [beq_iff_eq] at hp
          exact fun he => hp he.symm
        simp [hp, read_writeFile, hpe, Option.or]

theorem templateRels_nodup : templateRels.Nodup := by decide

theorem templateWrites_map_fst (name v : String) :
    (templateWrites name v).map Prod.fst = templateRels := rfl

/-- An all-successful scaffold is exactly the pure mkdir sequence
followed by the pure write sequence, with no error. -/
theorem createProjectStructure_allOk (name detected : String) (fs : FS) :
    createProjectStructure allOk allOk name detected fs =
      (applyWrites name (templateWrites name (resolveGoVersion detected))
        (applyMkdirs name dirManifest fs), none) := by
  unfold createProjectStructure
  rw [runMkdirs_allOk]
  exact runWrites_allOk _ _ _

/-- Any scaffold run that reports no error performed exactly the pure
mkdir sequence followed by the pure write sequence. -/
theorem createProjectStructure_success_eq (mkdirOk writeOk : String → Bool)
    (name detected : String) (fs : FS)
    (h : (createProjectStructure mkdirOk writeOk name detected fs).2 = none) :
    (createProjectStructure mkdirOk writeOk name detected fs).1 =
      applyWrites name (templateWrites name (resolveGoVersion detected))
        (applyMkdirs name dirManifest fs) := by
  rcases hm : runMkdirs mkdirOk name dirManifest fs with ⟨fs1, e⟩
  have hc : createProjectStructure mkdirOk writeOk name detected fs
      = match (fs1, e) with
        | (fs1, some e) => (fs1, some e)
        | (fs1, none) =>
          runWrites writeOk name (templateWrites name (resolveGoVersion detected)) fs1 := by
    unfold createProjectStructure
    rw [hm]
  cases e with
  | some err =>
    rw [hc] at h
    simp at h
  | none =>
    rw [hc] at h ⊢
    have h1 : fs1 = applyMkdirs name dirManifest fs := by
      have h2 := runMkdirs_success_eq mkdirOk name dirManifest fs (by rw [hm])
      rw [hm] at h2
      exact h2
    subst h1
    exact runWrites_success_eq writeOk name _ _ h

theorem takeWhile_append_of_all {p : Char → Bool} {l1 : List Char} (l2 : List Char)
    (h : l1.all p = true) : (l1 ++ l2).takeWhile p = l1 ++ l2.takeWhile p := by
  induction l1 with
  | nil => rfl
  | cons c cs ih =>
    simp only [List.all_cons, Bool.and_eq_true] at h
    simp [List.takeWhile_cons, h.1, ih h.2]

theorem takeWhile_newline_cons (l : List Char) :
    ('\n' :: l).takeWhile (fun c => c != '\n') = [] := by
  simp [List.takeWhile_cons]

/-- The module declaration of the generated manifest is exactly
`module <name>` whenever the name has no embedded newline. -/
theorem firstLine_goModContent (name v : String)
    (h : name.data.all (fun c => c != '\n') = true) :
    firstLine (goModContent name v) = "module " ++ name := by
  apply string_eq_of_data
  show List.takeWhile (fun c => c != '\n') (goModContent name v).data
      = ("module " ++ name).data
  unfold goModContent
  simp only [string_data_append, List.append_assoc]
  rw [takeWhile_append_of_all _ (by decide)]
  rw [takeWhile_append_of_all _ h]
  simp [List.cons_append, List.takeWhile_cons, List.append_nil]

/-- C1.  For every project name, a scaffold run that reports success
has created every entry of the directory manifest under `<name>/` and
written a `go.mod` whose module declaration is exactly the project
name; concretely, scaffolding `demo` produces `demo/cmd`,
`demo/config/config.go`, a `demo/config.yaml` holding exactly
`server:` and `  port: 8080`, and a `go.mod` declaring `module demo`. -/
theorem scaffold_creates_manifest_and_module
    (mkdirOk writeOk : String → Bool) (name detected : String) (fs : FS)
    (hsucc : (createProjectStructure mkdirOk writeOk name detected fs).2 = none)
    (hname : name.data.all (fun c => c != '\n') = true) :
    (∀ d ∈ dirManifest,
        joinRel name d ∈ (createProjectStructure mkdirOk writeOk name detected fs).1.dirs)
    ∧ (createProjectStructure mkdirOk writeOk name detected fs).1.read (joinRel name "go.mod")
        = some (goModContent name (resolveGoVersion detected))
    ∧ firstLine (goModContent name (resolveGoVersion detected)) = "module " ++ name
    ∧ "demo/cmd" ∈ (createProjectStructure allOk allOk "demo" "go1.21.3" FS.empty).1.dirs
    ∧ (createProjectStructure allOk allOk "demo" "go1.21.3" FS.empty).1.read
        "demo/config/config.go" = some configGoContent
    ∧ (createProjectStructure allOk allOk "demo" "go1.21.3" FS.empty).1.read
        "demo/config.yaml" = some "server:\n  port: 8080"
    ∧ (createProjectStructure allOk allOk "demo" "go1.21.3" FS.empty).1.read
        "demo/go.mod" = some (goModContent "demo" "1.21")
    ∧ firstLine (goModContent "demo" "1.21") = "module demo" := by
  have hfs := createProjectStructure_success_eq mkdirOk writeOk name detected fs hsucc
  refine ⟨?_, ?_, ?_, by decide, by decide, by decide, by decide, by decide⟩
  · intro d hd
    rw [hfs, applyWrites_dirs]
    exact mem_dirs_applyMkdirs name _ hd
  · rw [hfs]
    exact read_applyWrites_mem name _
      (by rw [templateWrites_map_fst]; exact templateRels_nodup)
      (List.mem_cons_self _ _)
  · exact firstLine_goModContent name _ hname

/-- Witness for C1 at a concrete successful run. -/
theorem scaffold_creates_manifest_and_module_witness :
    joinRel "demo" "cmd"
      ∈ (createProjectStructure allOk allOk "demo" "go1.21.3" FS.empty).1.dirs :=
  (scaffold_creates_manifest_and_module allOk allOk "demo" "go1.21.3" FS.empty
    (by decide) (by decide)).1 "cmd" (by decide)

/-- C9.  The scaffold engine performs no validation of the supplied
project name: for every name (separators, emptiness, anything) it
returns no error, joins the name verbatim into every created path, and
splices the name verbatim into the generated contents. -/
theorem scaffold_no_name_validation (name detected : String) (fs : FS) :
    (createProjectStructure allOk allOk name detected fs).2 = none
    ∧ (∀ d ∈ dirManifest,
        joinRel name d ∈ (createProjectStructure allOk allOk name detected fs).1.dirs)
    ∧ (createProjectStructure allOk allOk name detected fs).1.read (joinRel name "go.mod")
        = some ("module " ++ name ++ "\n\ngo " ++ resolveGoVersion detected ++
            "\n\nrequire (\n    github.com/gin-gonic/gin latest\n    github.com/spf13/viper latest\n    github.com/swaggo/files latest\n    github.com/swaggo/gin-swagger latest\n    github.com/swaggo/swag latest\n)\n")
    ∧ (createProjectStructure allOk allOk name detected fs).1.read
        (joinRel name "cmd/server.go") = some (serverContent name)
    ∧ joinRel "../evil" "go.mod" = "../evil/go.mod"
    ∧ joinRel "" "go.mod" = "go.mod" := by
  rw [createProjectStructure_allOk]
  refine ⟨rfl, ?_, ?_, ?_, by decide, by decide⟩
  · intro d hd
    rw [applyWrites_dirs]
    exact mem_dirs_applyMkdirs name _ hd
  · exact read_applyWrites_mem name _
      (by rw [templateWrites_map_fst]; exact templateRels_nodup)
      (List.mem_cons_self _ _)
  · exact read_applyWrites_mem name _
      (by rw [templateWrites_map_fst]; exact templateRels_nodup)
      (by simp [templateWrites])

/-- Witness for C9 at a name containing a path separator. -/
theorem scaffold_no_name_validation_witness :
    (createProjectStructure allOk allOk "../evil" "go1.21.3" FS.empty).2 = none :=
  (scaffold_no_name_validation "../evil" "go1.21.3" FS.empty).1

theorem read_applyMkdirs (name : String) (ds : List String) (fs : FS) (p : String) :
    (applyMkdirs name ds fs).read p = fs.read p := by
  show (applyMkdirs name ds fs).files p = fs.files p
  rw [applyMkdirs_files]

/-- C8.  Re-scaffolding the same name into the same root succeeds
again (no already-exists error), changes nothing relative to the first
run — neither file contents nor directories — and leaves every
generated file holding exactly the single-run content. -/
theorem rescaffold_idempotent_overwrite (name detected : String) (fs : FS) :
    (createProjectStructure allOk allOk name detected fs).2 = none
    ∧ (createProjectStructure allOk allOk name detected
        (createProjectStructure allOk allOk name detected fs).1).2 = none
    ∧ (∀ p, (createProjectStructure allOk allOk name detected
          (createProjectStructure allOk allOk name detected fs).1).1.read p
        = (createProjectStructure allOk allOk name detected fs).1.read p)
    ∧ (createProjectStructure allOk allOk name detected
        (createProjectStructure allOk allOk name detected fs).1).1.dirs
      = (createProjectStructure allOk allOk name detected fs).1.dirs
    ∧ (∀ rc ∈ templateWrites name (resolveGoVersion detected),
        (createProjectStructure allOk allOk name detected
          (createProjectStructure allOk allOk name detected fs).1).1.read (joinRel name rc.1)
        = some rc.2) := by
  refine ⟨by simp [createProjectStructure_allOk], by simp [createProjectStructure_allOk],
    ?_, ?_, ?_⟩
  · intro p
    simp only [createProjectStructure_allOk]
    rw [read_applyWrites_char]
    cases hf : (templateWrites name (resolveGoVersion detected)).reverse.find?
        (fun rc => joinRel name rc.1 == p) with
    | some rc =>
      rw [read_applyWrites_char name _ (applyMkdirs name dirManifest fs) p, hf]
    | none =>
      exact read_applyMkdirs name dirManifest _ p
  · simp only [createProjectStructure_allOk]
    have hall : ∀ d ∈ dirManifest, joinRel name d
        ∈ (applyWrites name (templateWrites name (resolveGoVersion detected))
            (applyMkdirs name dirManifest fs)).dirs := by
      intro d hd
      rw [applyWrites_dirs]
      exact mem_dirs_applyMkdirs name _ hd
    rw [applyWrites_dirs, applyMkdirs_of_all_mem name hall]
  · intro rc hm
    simp only [createProjectStructure_allOk]
    exact read_applyWrites_mem name _
      (by rw [templateWrites_map_fst]; exact templateRels_nodup) hm

/-- Witness for C8 at a concrete double scaffold. -/
theorem rescaffold_idempotent_overwrite_witness :
    (createProjectStructure allOk allOk "demo" "go1.21.3"
      (createProjectStructure allOk allOk "demo" "go1.21.3" FS.empty).1).2 = none :=
  (rescaffold_idempotent_overwrite "demo" "go1.21.3" FS.empty).2.1

/-- Stopping the write loop at a failing entry: every earlier write is
performed, the loop aborts with an error naming the failing entry and its
relative path, and nothing later is attempted. -/
theorem runWrites_fail_decomp (writeOk : String → Bool) (name : String)
    (pre : List (String × String)) (rc : String × String)
    (post : List (String × String)) (fs : FS)
    (hpre : ∀ rc' ∈ pre, writeOk (joinRel name rc'.1) = true)
    (hfail : writeOk (joinRel name rc.1) = false) :
    runWrites writeOk name (pre ++ rc :: post) fs
      = (applyWrites name pre fs, some ("failed to write " ++ rc.1)) := by
  induction pre generalizing fs with
  | nil =>
    obtain ⟨rel, c⟩ := rc
    simp only [List.nil_append, runWrites]
    rw [if_neg (by simp_all), applyWrites]
    rfl
  | cons rc0 pre ih =>
    obtain ⟨r0, c0⟩ := rc0
    simp only [List.cons_append, runWrites]
    rw [if_pos (hpre (r0, c0) (List.mem_cons_self _ _))]
    rw [show applyWrites name ((r0, c0) :: pre) fs
        = applyWrites name pre (fs.writeFile (joinRel name r0) c0) from rfl]
    exact ih _ (fun rc' h' => hpre rc' (List.mem_cons_of_mem _ h'))

theorem nodup_take_drop_disjoint {α : Type} {l : List α} (hnd : l.Nodup) (k : Nat) :
    List.Disjoint (l.take k) (l.drop k) := by
  have h := hnd
  rw [← List.take_append_drop k l] at h
  exact (List.nodup_append.mp h).2.2

theorem mem_take_ne_getElem {α : Type} {l : List α} (hnd : l.Nodup) {k : Nat}
    (hk : k < l.length) {x : α} (hx : x ∈ l.take k) : x ≠ l[k] := by
  intro he
  apply nodup_take_drop_disjoint hnd k hx
  rw [List.drop_eq_getElem_cons hk, ← he]
  exact List.mem_cons_self _ _

/-- C6.  If the write of the k-th template file is made to fail, the
scaffold aborts with an error naming the relative path of that file, the
k−1 files written before it keep their just-written contents, every
file from the failing one onwards is untouched, and all directories
created beforehand remain — no rollback. -/
theorem scaffold_nth_write_failure_no_rollback (name detected : String) (fs : FS)
    (k : Nat) (hk : k < (templateWrites name (resolveGoVersion detected)).length) :
    (createProjectStructure allOk
        (fun p => !(p == joinRel name (templateWrites name (resolveGoVersion detected))[k].1))
        name detected fs).2
      = some ("failed to write " ++ (templateWrites name (resolveGoVersion detected))[k].1)
    ∧ (∀ rc ∈ (templateWrites name (resolveGoVersion detected)).take k,
        (createProjectStructure allOk
          (fun p => !(p == joinRel name (templateWrites name (resolveGoVersion detected))[k].1))
          name detected fs).1.read (joinRel name rc.1) = some rc.2)
    ∧ (∀ rc ∈ (templateWrites name (resolveGoVersion detected)).drop k,
        (createProjectStructure allOk
          (fun p => !(p == joinRel name (templateWrites name (resolveGoVersion detected))[k].1))
          name detected fs).1.read (joinRel name rc.1) = fs.read (joinRel name rc.1))
    ∧ (∀ d ∈ dirManifest,
        joinRel name d ∈ (createProjectStructure allOk
          (fun p => !(p == joinRel name (templateWrites name (resolveGoVersion detected))[k].1))
          name detected fs).1.dirs) := by
  set ws := templateWrites name (resolveGoVersion detected) with hws
  set wOk : String → Bool := fun p => !(p == joinRel name ws[k].1) with hwOk
  have hndrel : (ws.map Prod.fst).Nodup := by
    rw [hws, templateWrites_map_fst]
    exact templateRels_nodup
  have hkm : k < (ws.map Prod.fst).length := by
    rw [List.length_map]
    exact hk
  have hfst : (ws.map Prod.fst)[k] = ws[k].1 := List.getElem_map Prod.fst
  have hpre : ∀ rc' ∈ ws.take k, wOk (joinRel name rc'.1) = true := by
    intro rc' hrc'
    have h1 : rc'.1 ∈ (ws.map Prod.fst).take k := by
      rw [← List.map_take]
      exact List.mem_map_of_mem Prod.fst hrc'
    have h2 : rc'.1 ≠ ws[k].1 := by
      rw [← hfst]
      exact mem_take_ne_getElem hndrel hkm h1
    rw [hwOk]
    simp only [Bool.not_eq_true']
    rw [beq_eq_false_iff_ne, Ne, joinRel_eq_iff]
    exact h2
  have hfail : wOk (joinRel name ws[k].1) = false := by
    rw [hwOk]
    simp
  have hsplit : ws.take k ++ ws[k] :: ws.drop (k + 1) = ws := by
    rw [← List.drop_eq_getElem_cons hk, List.take_append_drop]
  have hrun : createProjectStructure allOk wOk name detected fs
      = (applyWrites name (ws.take k) (applyMkdirs name dirManifest fs),
         some ("failed to write " ++ ws[k].1)) := by
    unfold createProjectStructure
    rw [runMkdirs_allOk]
    show runWrites wOk name ws (applyMkdirs name dirManifest fs) = _
    conv_lhs => rw [← hsplit]
    exact runWrites_fail_decomp wOk name (ws.take k) ws[k] (ws.drop (k + 1)) _ hpre hfail
  refine ⟨by rw [hrun], ?_, ?_, ?_⟩
  · intro rc hm
    rw [hrun]
    refine read_applyWrites_mem name _ ?_ hm
    rw [List.map_take]
    exact List.Nodup.sublist (List.take_sublist _ _) hndrel
  · intro rc hm
    rw [hrun]
    show (applyWrites name (ws.take k) (applyMkdirs name dirManifest fs)).read
        (joinRel name rc.1) = fs.read (joinRel name rc.1)
    rw [read_applyWrites_notmem name _ ?hne]
    · exact read_applyMkdirs name dirManifest fs _
    case hne =>
      intro rc' hrc'
      rw [Ne, joinRel_eq_iff]
      intro he
      have h1 : rc'.1 ∈ (ws.map Prod.fst).take k := by
        rw [← List.map_take]
        exact List.mem_map_of_mem Prod.fst hrc'
      have h2 : rc.1 ∈ (ws.map Prod.fst).drop k := by
        rw [← List.map_drop]
        exact List.mem_map_of_mem Prod.fst hm
      exact nodup_take_drop_disjoint hndrel k h1 (he ▸ h2)
  · intro d hd
    rw [hrun]
    show joinRel name d
        ∈ (applyWrites name (ws.take k) (applyMkdirs name dirManifest fs)).dirs
    rw [applyWrites_dirs]
    exact mem_dirs_applyMkdirs name _ hd

/-- Witness for C6: failing the third template write of a `demo`
scaffold. -/
theorem scaffold_nth_write_failure_no_rollback_witness :
    (createProjectStructure allOk
        (fun p => !(p == "demo/internal/handler/test_handler.go"))
        "demo" "go1.21.3" FS.empty).2
      = some "failed to write internal/handler/test_handler.go" :=
  (scaffold_nth_write_failure_no_rollback "demo" "go1.21.3" FS.empty 2 (by decide)).1

/-- C2.  The version comparison is numeric — major first, minor only
on equal majors — and clamping substitutes the minimum exactly when
the detected pair is strictly below it: `1.9` clamps to `1.18`
(9 < 18 numerically) while `1.25` is kept unchanged. -/
theorem version_clamp_numeric_compare :
    (∀ v1 v2 : String, compareGoVersion v1 v2 < 0 ↔
      ((parseVersionPair v1).1 < (parseVersionPair v2).1
        ∨ ((parseVersionPair v1).1 = (parseVersionPair v2).1
            ∧ (parseVersionPair v1).2 < (parseVersionPair v2).2)))
    ∧ resolveGoVersion "1.9" = "1.18"
    ∧ resolveGoVersion "1.25" = "1.25"
    ∧ compareGoVersion "1.9" "1.18" < 0
    ∧ (∀ detected : String,
        resolveGoVersion detected = "1.18"
        ∨ ¬ compareGoVersion (resolveGoVersion detected) "1.18" < 0) := by
  refine ⟨?_, by decide, by decide, by decide, ?_⟩
  · intro v1 v2
    simp only [compareGoVersion]
    split_ifs <;> omega
  · intro d
    unfold resolveGoVersion
    split_ifs with h
    · exact Or.inl rfl
    · exact Or.inr h

/-- Witness for C2 at the clamped example. -/
theorem version_clamp_numeric_compare_witness :
    compareGoVersion "1.9" "1.18" < 0 :=
  version_clamp_numeric_compare.2.2.2.1

/-- C3 counterexample: the detected string `1a.20` has only one
numeric dot-field, yet the resolver does not fall back to the default
`1.18`: it keeps the malformed `1a.20` (its leading-digit
interpretation (1,20) is not below the minimum), so `1a.20` would be
embedded in the manifest. -/
theorem version_resolver_malformed_counterexample :
    ((splitDots (stripGo "1a.20")).filter isNumericField).length < 2
    ∧ resolveGoVersion "1a.20" ≠ "1.18"
    ∧ resolveGoVersion "1a.20" = "1a.20" := by decide

/-- C3 amended.  The resolver keeps the first two dot-separated fields
verbatim (numeric or not); only when fewer than two fields are present
does it fall back to the default `1.18`; the result is afterwards
clamped so that it never compares numerically below `1.18`; no input
raises an error, but a malformed two-field string whose leading-digit
interpretation is not below (1,18) — such as `1a.20` — is kept
verbatim rather than replaced by the default. -/
theorem version_resolver_malformed_amended :
    (∀ detected : String, (splitDots (stripGo detected)).length < 2 →
        resolveGoVersion detected = "1.18")
    ∧ (∀ detected : String, ¬ compareGoVersion (resolveGoVersion detected) "1.18" < 0)
    ∧ resolveGoVersion "1a.20" = "1a.20"
    ∧ resolveGoVersion "not-a-version" = "1.18" := by
  refine ⟨?_, ?_, by decide, by decide⟩
  · intro d h
    unfold resolveGoVersion resolveFirstTwo
    cases hp : splitDots (stripGo d) with
    | nil => simp
    | cons p0 tl =>
      cases tl with
      | nil => simp
      | cons p1 tl' =>
        rw [hp] at h
        simp at h
        omega
  · intro d
    unfold resolveGoVersion
    split_ifs with h
    · decide
    · exact h

/-- Witness for the amended C3 statement at a one-field input. -/
theorem version_resolver_malformed_amended_witness :
    resolveGoVersion "1" = "1.18" :=
  version_resolver_malformed_amended.1 "1" (by decide)

/-- C4.  For every selector in the catalog the derived output path is
`<projectRoot>/bin/<baseName(projectRoot)>` with `.exe` appended iff
the selected OS is windows; concretely, selector `5` compiles a
windows target ending in `.exe` and selectors `1`–`4` do not. -/
theorem build_output_path_derivation :
    (∀ input cwd : String, ∀ p : PlatformTarget,
      platforms (goTrimSpace input) = some p →
      buildCmdRun input cwd =
        ([BuildEffect.mkdirBin
            (joinRel (if pathBase cwd = "cmd" then pathDir cwd else cwd) "bin"),
          BuildEffect.compile p.os p.arch
            (joinRel (joinRel (if pathBase cwd = "cmd" then pathDir cwd else cwd) "bin")
              (pathBase (if pathBase cwd = "cmd" then pathDir cwd else cwd)
                ++ (if p.os = "windows" then ".exe" else "")))], none))
    ∧ buildCmdRun "5" "demo"
        = ([BuildEffect.mkdirBin "demo/bin",
            BuildEffect.compile "windows" "amd64" "demo/bin/demo.exe"], none)
    ∧ strEndsWith "demo/bin/demo.exe" ".exe" = true
    ∧ buildCmdRun "1" "demo"
        = ([BuildEffect.mkdirBin "demo/bin",
            BuildEffect.compile "linux" "amd64" "demo/bin/demo"], none)
    ∧ buildCmdRun "2" "demo"
        = ([BuildEffect.mkdirBin "demo/bin",
            BuildEffect.compile "linux" "arm64" "demo/bin/demo"], none)
    ∧ buildCmdRun "3" "demo"
        = ([BuildEffect.mkdirBin "demo/bin",
            BuildEffect.compile "darwin" "amd64" "demo/bin/demo"], none)
    ∧ buildCmdRun "4" "demo"
        = ([BuildEffect.mkdirBin "demo/bin",
            BuildEffect.compile "darwin" "arm64" "demo/bin/demo"], none)
    ∧ strEndsWith "demo/bin/demo" ".exe" = false := by
  refine ⟨?_, by decide, by decide, by decide, by decide, by decide, by decide, by decide⟩
  intro input cwd p h
  simp only [buildCmdRun]
  rw [h]
  by_cases hos : p.os = "windows" <;> simp [hos]

/-- Witness for C4 at selector 5. -/
theorem build_output_path_derivation_witness :
    buildCmdRun "5" "demo"
      = ([BuildEffect.mkdirBin "demo/bin",
          BuildEffect.compile "windows" "amd64" "demo/bin/demo.exe"], none) := by
  have h := build_output_path_derivation.1 "5" "demo"
    ⟨"windows", "amd64", "Windows (amd64)"⟩ (by decide)
  exact h.trans (by decide)

/-- C5.  A selector outside the catalog is rejected with an error
containing `invalid choice` and naming the valid range `1-5`, before
any effect (no bin directory, no compiler subprocess); catalog lookup
is the only validation: every key in the catalog proceeds without
error. -/
theorem build_invalid_choice_rejected :
    (∀ input cwd : String, platforms (goTrimSpace input) = none →
      buildCmdRun input cwd
        = ([], some ("invalid choice: " ++ goTrimSpace input
            ++ ", please enter 1-" ++ toString platformCount)))
    ∧ buildCmdRun "9" "demo" = ([], some "invalid choice: 9, please enter 1-5")
    ∧ (∀ key : String, (platforms key).isSome = true
        ↔ (key = "1" ∨ key = "2" ∨ key = "3" ∨ key = "4" ∨ key = "5"))
    ∧ (∀ input cwd : String, ∀ p : PlatformTarget,
        platforms (goTrimSpace input) = some p → (buildCmdRun input cwd).2 = none) := by
  refine ⟨?_, by decide, ?_, ?_⟩
  · intro input cwd h
    simp only [buildCmdRun]
    rw [h]
  · intro key
    unfold platforms
    split_ifs with h1 h2 h3 h4 h5 <;> simp_all
  · intro input cwd p h
    simp only [buildCmdRun]
    rw [h]

/-- Witness for C5 at selector 9. -/
theorem build_invalid_choice_rejected_witness :
    buildCmdRun "9" "demo"
      = ([], some ("invalid choice: " ++ goTrimSpace "9"
          ++ ", please enter 1-" ++ toString platformCount)) :=
  build_invalid_choice_rejected.1 "9" "demo" (by decide)

/-- C7.  Documentation-generation failure is non-fatal: the run stage
still executes and the overall outcome is decided by the run stage
alone, with a warning recorded; dependency-sync failure is fatal and
skips the remaining stages with its own error; run failure is fatal
with its own error. -/
theorem orchestrator_swag_nonfatal_fatal_policy :
    (∀ runOk : Bool,
      newCmdAfterScaffold "y" true false runOk
        = ([Stage.tidy, Stage.swag, Stage.run], [swagWarning],
            if runOk then none else some "failed to start project"))
    ∧ (∀ swagOk runOk : Bool,
        newCmdAfterScaffold "y" false swagOk runOk
          = ([Stage.tidy], [], some "failed to run \x27go mod tidy\x27"))
    ∧ (∀ swagOk : Bool,
        (newCmdAfterScaffold "y" true swagOk false).2.2
          = some "failed to start project")
    ∧ (∀ swagOk : Bool, (newCmdAfterScaffold "y" true swagOk true).2.2 = none) := by
  decide

/-- C10.  The reply is lowercased and trimmed before comparison; the
empty reply acts exactly like `y` and `yes`; any other reply skips all
three stages and the command still reports success. -/
theorem confirm_reply_trim_lower_default :
    (∀ t s r : Bool,
      newCmdAfterScaffold "" t s r = newCmdAfterScaffold "y" t s r
      ∧ newCmdAfterScaffold "  YES \n" t s r = newCmdAfterScaffold "yes" t s r
      ∧ newCmdAfterScaffold "Y" t s r = newCmdAfterScaffold "y" t s r)
    ∧ (∀ reply : String, ∀ t s r : Bool,
        ¬ (goTrimSpace (goToLower reply) = "y"
            ∨ goTrimSpace (goToLower reply) = "yes"
            ∨ goTrimSpace (goToLower reply) = "") →
        newCmdAfterScaffold reply t s r = ([], [], none)) := by
  refine ⟨by decide, ?_⟩
  intro reply t s r h
  unfold newCmdAfterScaffold
  rw [if_neg h]

/-- Witness for C10 at a negative reply. -/
theorem confirm_reply_trim_lower_default_witness :
    newCmdAfterScaffold "n" true true true = ([], [], none) :=
  confirm_reply_trim_lower_default.2 "n" true true true (by decide)

end Shiroha
